import Mathlib

/-
  Verification of the adb_query_runner pipeline (QueryExecutor, GraphClassifier,
  GraphExporter) against its specification.

  JSON documents are modelled by the inductive `Json` below (numbers as exact
  integers: only the JSON type tag of a number is ever inspected by the code
  under verification).  Rust `HashSet<String>` values are modelled as
  duplicate-free lists in insertion order; `serde_json::Map` values as
  association lists with replace-on-insert, so that key lookup agrees with the
  original BTreeMap.  Fallible Rust functions become `Except`; a Rust `panic!`
  (from `Option::unwrap` on `None`) becomes an explicit `panicked` outcome.
-/

/-- A JSON value, as produced by the document store. -/
inductive Json where
  | null
  | bool (b : Bool)
  | num (n : Int)
  | str (s : String)
  | arr (elems : List Json)
  | obj (fields : List (String × Json))
deriving Repr

/- Decidable equality on `Json`, by structural recursion through the nested lists. -/
mutual

def Json.decEq : (a b : Json) → Decidable (a = b)
  | .null, .null => .isTrue rfl
  | .bool a, .bool b =>
    if h : a = b then .isTrue (by rw [h]) else .isFalse (fun hh => h (Json.bool.inj hh))
  | .num a, .num b =>
    if h : a = b then .isTrue (by rw [h]) else .isFalse (fun hh => h (Json.num.inj hh))
  | .str a, .str b =>
    if h : a = b then .isTrue (by rw [h]) else .isFalse (fun hh => h (Json.str.inj hh))
  | .arr a, .arr b =>
    match Json.decEqArr a b with
    | .isTrue h => .isTrue (by rw [h])
    | .isFalse h => .isFalse (fun hh => h (Json.arr.inj hh))
  | .obj a, .obj b =>
    match Json.decEqObj a b with
    | .isTrue h => .isTrue (by rw [h])
    | .isFalse h => .isFalse (fun hh => h (Json.obj.inj hh))
  | .null, .bool _ => .isFalse (fun h => nomatch h)
  | .null, .num _ => .isFalse (fun h => nomatch h)
  | .null, .str _ => .isFalse (fun h => nomatch h)
  | .null, .arr _ => .isFalse (fun h => nomatch h)
  | .null, .obj _ => .isFalse (fun h => nomatch h)
  | .bool _, .null => .isFalse (fun h => nomatch h)
  | .bool _, .num _ => .isFalse (fun h => nomatch h)
  | .bool _, .str _ => .isFalse (fun h => nomatch h)
  | .bool _, .arr _ => .isFalse (fun h => nomatch h)
  | .bool _, .obj _ => .isFalse (fun h => nomatch h)
  | .num _, .null => .isFalse (fun h => nomatch h)
  | .num _, .bool _ => .isFalse (fun h => nomatch h)
  | .num _, .str _ => .isFalse (fun h => nomatch h)
  | .num _, .arr _ => .isFalse (fun h => nomatch h)
  | .num _, .obj _ => .isFalse (fun h => nomatch h)
  | .str _, .null => .isFalse (fun h => nomatch h)
  | .str _, .bool _ => .isFalse (fun h => nomatch h)
  | .str _, .num _ => .isFalse (fun h => nomatch h)
  | .str _, .arr _ => .isFalse (fun h => nomatch h)
  | .str _, .obj _ => .isFalse (fun h => nomatch h)
  | .arr _, .null => .isFalse (fun h => nomatch h)
  | .arr _, .bool _ => .isFalse (fun h => nomatch h)
  | .arr _, .num _ => .isFalse (fun h => nomatch h)
  | .arr _, .str _ => .isFalse (fun h => nomatch h)
  | .arr _, .obj _ => .isFalse (fun h => nomatch h)
  | .obj _, .null => .isFalse (fun h => nomatch h)
  | .obj _, .bool _ => .isFalse (fun h => nomatch h)
  | .obj _, .num _ => .isFalse (fun h => nomatch h)
  | .obj _, .str _ => .isFalse (fun h => nomatch h)
  | .obj _, .arr _ => .isFalse (fun h => nomatch h)

def Json.decEqArr : (a b : List Json) → Decidable (a = b)
  | [], [] => .isTrue rfl
  | x :: xs, y :: ys =>
    match Json.decEq x y, Json.decEqArr xs ys with
    | .isTrue h1, .isTrue h2 => .isTrue (by rw [h1, h2])
    | .isFalse h1, _ => .isFalse (fun hh => h1 (List.cons.inj hh).1)
    | _, .isFalse h2 => .isFalse (fun hh => h2 (List.cons.inj hh).2)
  | [], _ :: _ => .isFalse (fun h => nomatch h)
  | _ :: _, [] => .isFalse (fun h => nomatch h)

def Json.decEqObj : (a b : List (String × Json)) → Decidable (a = b)
  | [], [] => .isTrue rfl
  | (k, v) :: xs, (k', v') :: ys =>
    if h1 : k = k' then
      match Json.decEq v v', Json.decEqObj xs ys with
      | .isTrue h2, .isTrue h3 => .isTrue (by rw [h1, h2, h3])
      | .isFalse h2, _ => .isFalse (fun hh => h2 (congrArg Prod.snd (List.cons.inj hh).1))
      | _, .isFalse h3 => .isFalse (fun hh => h3 (List.cons.inj hh).2)
    else .isFalse (fun hh => h1 (congrArg Prod.fst (List.cons.inj hh).1))
  | [], _ :: _ => .isFalse (fun h => nomatch h)
  | _ :: _, [] => .isFalse (fun h => nomatch h)

end

instance : DecidableEq Json := Json.decEq

/-- Key lookup in an association list, first match wins (serde maps have unique keys). -/
def jlookup : List (String × Json) → String → Option Json
  | [], _ => none
  | (k, v) :: rest, key => if k = key then some v else jlookup rest key

/-- Rust `Value::as_object` (just the field list of an object). -/
def Json.asObj : Json → Option (List (String × Json))
  | .obj l => some l
  | _ => none

/-- Rust `Value::as_str`. -/
def Json.asStr : Json → Option String
  | .str s => some s
  | _ => none

/-- Rust `Value::as_bool`. -/
def Json.asBool : Json → Option Bool
  | .bool b => some b
  | _ => none

/-- Rust `Value::as_array`. -/
def Json.asArr : Json → Option (List Json)
  | .arr l => some l
  | _ => none

/-- Rust `Value::as_i64` (numbers are modelled as integers). -/
def Json.asI64 : Json → Option Int
  | .num n => some n
  | _ => none

/-- Rust `Value::get(key)`: `Some` only on objects containing the key. -/
def Json.get (v : Json) (k : String) : Option Json :=
  match v with
  | .obj l => jlookup l k
  | _ => none

/-- Rust `value[key]` indexing: `Null` when the key is absent or `v` is not an object. -/
def Json.index (v : Json) (k : String) : Json :=
  (v.get k).getD .null

/-- Number of '/' characters in a string: `s.chars().filter(|&c| c == '/').count()`. -/
def slashCount (s : String) : Nat :=
  (s.data.filter (fun c => c = '/')).length

/-- Insertion into a `HashSet<String>` modelled as a duplicate-free list
    (no-op when the element is already present). -/
def insertNew (s : List String) (x : String) : List String :=
  if x ∈ s then s else s ++ [x]

/-! ## GraphClassifier: `is_graph` from src/graph_analyzer.rs -/

/-- The error objects `json!({"error": msg, "value": item})` built by `is_graph`. -/
def errObj (msg : String) (item : Json) : Json :=
  .obj [("error", .str msg), ("value", item)]

/-- The error `json!({"error": "Array contains no valid edges"})`. -/
def noEdgesErr : Json :=
  .obj [("error", .str "Array contains no valid edges")]

/-- The synthesized placeholder vertex `json!({"_id": id})`. -/
def placeholder (id : String) : Json :=
  .obj [("_id", .str id)]

/-- The loop state of `is_graph`: the two output vectors and the two hash sets. -/
structure GState where
  vertices : List Json
  edges : List Json
  vertex_ids : List String
  vertex_ids_needed : List String
deriving Repr

/-- One iteration of the `for item in array` loop of `is_graph`, mirroring the
    branch structure of src/graph_analyzer.rs lines 12-70. -/
def processItem (st : GState) (item : Json) : Except Json GState :=
  match item.asObj with
  | none => .error (errObj "Array contains non-object elements" item)
  | some obj =>
    match jlookup obj "_from", jlookup obj "_to" with
    | some f, some t =>
      match f.asStr, t.asStr with
      | some fs, some ts =>
        if slashCount fs ≠ 1 ∨ slashCount ts ≠ 1 then
          .error (errObj "Edge _from or _to has invalid format" item)
        else
          .ok { st with
                vertex_ids_needed := insertNew (insertNew st.vertex_ids_needed fs) ts,
                edges := st.edges ++ [item] }
      | _, _ => .error (errObj "Edge _from or _to is not a string" item)
    | _, _ =>
      match jlookup obj "_id" with
      | some id =>
        match id.asStr with
        | some ids =>
          if slashCount ids ≠ 1 then
            .error (errObj "Vertex _id has invalid format" item)
          else
            .ok { st with
                  vertex_ids := insertNew st.vertex_ids ids,
                  vertices := st.vertices ++ [item] }
        | none => .error (errObj "Vertex _id is not a string" item)
      | none => .error (errObj "Object is neither vertex nor edge" item)

/-- The classification loop over the whole input array. -/
def isGraphLoop : List Json → GState → Except Json GState
  | [], st => .ok st
  | item :: rest, st =>
    match processItem st item with
    | .error e => .error e
    | .ok st' => isGraphLoop rest st'

/-- `is_graph` from src/graph_analyzer.rs: classify a flat document array into a
    `(vertices, edges)` pair, synthesizing placeholder vertices for edge
    endpoints that have no explicit vertex document.  The `HashSet` difference
    `vertex_ids_needed - vertex_ids` is modelled as a filter over the needed
    list (the sets are modelled as duplicate-free lists in insertion order;
    Rust's `HashSet` iteration order is unspecified, so every claim below is
    stated up to this determinization or order-independently). -/
def is_graph (array : List Json) : Except Json (Json × Json) :=
  match isGraphLoop array ⟨[], [], [], []⟩ with
  | .error e => .error e
  | .ok st =>
    if st.edges.isEmpty then
      .error noEdgesErr
    else
      .ok (.arr (st.vertices ++
                 (st.vertex_ids_needed.filter (fun id => id ∉ st.vertex_ids)).map placeholder),
           .arr st.edges)

/-- An element is edge-shaped when it is an object carrying both `_from` and `_to`
    (the condition that routes `is_graph` into its edge branch). -/
def edgeShaped (v : Json) : Bool :=
  match v.asObj with
  | some obj => (jlookup obj "_from").isSome && (jlookup obj "_to").isSome
  | none => false

/-- The per-element rejection of `is_graph`: `some e` when the element is
    disqualifying (with `e` the error object the loop returns for it), `none`
    when the element is accepted as an edge or a vertex. -/
def elemError (item : Json) : Option Json :=
  match item.asObj with
  | none => some (errObj "Array contains non-object elements" item)
  | some obj =>
    match jlookup obj "_from", jlookup obj "_to" with
    | some f, some t =>
      match f.asStr, t.asStr with
      | some fs, some ts =>
        if slashCount fs ≠ 1 ∨ slashCount ts ≠ 1 then
          some (errObj "Edge _from or _to has invalid format" item)
        else
          none
      | _, _ => some (errObj "Edge _from or _to is not a string" item)
    | _, _ =>
      match jlookup obj "_id" with
      | some id =>
        match id.asStr with
        | some ids =>
          if slashCount ids ≠ 1 then
            some (errObj "Vertex _id has invalid format" item)
          else
            none
        | none => some (errObj "Vertex _id is not a string" item)
      | none => some (errObj "Object is neither vertex nor edge" item)

/-- The `_from`/`_to` strings of an element, when `is_graph` takes its edge branch
    and both pass the string test. -/
def edgeEnds (item : Json) : Option (String × String) :=
  match item.asObj with
  | some obj =>
    match jlookup obj "_from", jlookup obj "_to" with
    | some f, some t =>
      match f.asStr, t.asStr with
      | some fs, some ts => some (fs, ts)
      | _, _ => none
    | _, _ => none
  | none => none

/-- The `_id` string of an element, when present and a string. -/
def vertexId (item : Json) : Option String :=
  match item.asObj with
  | some obj =>
    match jlookup obj "_id" with
    | some id => id.asStr
    | none => none
  | none => none

/-- The state update performed by one accepted element of the `is_graph` loop. -/
def stepOk (st : GState) (item : Json) : GState :=
  match edgeEnds item with
  | some (fs, ts) =>
    { st with
      vertex_ids_needed := insertNew (insertNew st.vertex_ids_needed fs) ts,
      edges := st.edges ++ [item] }
  | none =>
    match vertexId item with
    | some ids =>
      { st with
        vertex_ids := insertNew st.vertex_ids ids,
        vertices := st.vertices ++ [item] }
    | none => st

/-! ## QueryExecutor: `execute_query` from src/main.rs

The HTTP transport is modelled by a script: `initial` is the (combined
send/JSON-decode) outcome of the `POST _api/cursor` request, and `conts` the
outcomes of the successive `PUT _api/cursor/{id}` continuation requests in
request order.  A `?`-propagated reqwest failure is an `Except.error`; note the
code never inspects the HTTP status, so a non-2xx response whose body decodes
as JSON arrives here as `Except.ok` of that body. -/

/-- Outcome of a run of `execute_query`.  `panicked` is the `Option::unwrap`
    panic on a missing/non-string cursor `id`; `outOfResponses` is a model
    artifact meaning the loop requested more continuations than were scripted. -/
inductive ExecOutcome where
  | ok (results : List Json)
  | err (e : String)
  | panicked
  | outOfResponses
deriving Repr, DecidableEq

/-- The documents a cursor response contributes:
    `resp.get("result").and_then(as_array)`, or nothing when absent. -/
def batchOf (resp : Json) : List Json :=
  ((resp.get "result").bind Json.asArr).getD []

/-- The continuation-loop test `cursor_response["hasMore"].as_bool().unwrap_or(false)`. -/
def contHasMore (resp : Json) : Bool :=
  ((resp.index "hasMore").asBool).getD false

/-- The `loop { ... }` of `execute_query`: issue continuation requests, extend
    the accumulated results, stop when `hasMore` is not `true`. -/
def runCursorLoop : List (Except String Json) → List Json → ExecOutcome
  | [], _ => .outOfResponses
  | .error e :: _, _ => .err e
  | .ok resp :: rest, acc =>
    let acc' := acc ++ batchOf resp
    if contHasMore resp then runCursorLoop rest acc' else .ok acc'

/-- `execute_query` from src/main.rs lines 77-132, over the scripted transport. -/
def execute_query (initial : Except String Json) (conts : List (Except String Json)) :
    ExecOutcome :=
  match initial with
  | .error e => .err e
  | .ok ir =>
    let results := batchOf ir
    match (ir.get "hasMore").bind Json.asBool with
    | some true =>
      match (ir.index "id").asStr with
      | none => .panicked
      | some _ => runCursorLoop conts results
    | _ => .ok results

/-! ## GraphExporter: `send_to_cytoscape` from src/cytoscape.rs

Pure parts (attribute discovery, column-type inference, element translation)
are translated directly.  The HTTP side is modelled by a script (`CyWorld`)
plus a trace of the requests actually issued; the column-provisioning loops
iterate Rust `HashMap`s whose order is unspecified, determinized here to
attribute-discovery order (no claim depends on that order). -/

/-- The JSON-type tag used by column-type inference. -/
def typeTag : Json → Option String
  | .str _ => some "String"
  | .num _ => some "Double"
  | .bool _ => some "Boolean"
  | _ => none

/-- Rust `k.starts_with('_')`: the first character is '_'. -/
def startsWithUnderscore (k : String) : Bool :=
  match k.data with
  | [] => false
  | c :: _ => c = '_'

/-- One element's contribution to attribute discovery: all its keys that do not
    start with '_' (nothing when it is not an object). -/
def collectStep (acc : List String) (o : Json) : List String :=
  match o.asObj with
  | some m => ((m.map Prod.fst).filter (fun k => !startsWithUnderscore k)).foldl insertNew acc
  | none => acc

/-- `collect_attributes`: union of all keys of the object elements, excluding
    names starting with '_' (the `HashSet` is modelled as a duplicate-free list). -/
def collect_attributes (objects : List Json) : List String :=
  objects.foldl collectStep []

/-- The value probed by column-type inference on one element:
    `v.as_object()?.get(attr).and_then(match String/Number/Bool)`. -/
def typedTag (v : Json) (attr : String) : Option String :=
  (v.asObj.bind (fun m => jlookup m attr)).bind typeTag

/-- Column-type inference: the tag of the first element (in input order) holding
    a string/number/boolean value for `attr`, defaulting to `"String"`. -/
def columnType (arr : List Json) (attr : String) : String :=
  (arr.findSome? (fun v => typedTag v attr)).getD "String"

/-- The column table built for one element kind: one `(name, type)` entry per
    discovered attribute (the Rust `HashMap`, determinized to discovery order). -/
def columnsOf (arr : List Json) : List (String × String) :=
  (collect_attributes arr).map (fun a => (a, columnType arr a))

/-- `serde_json::Map::insert`: replace the value when the key exists, else append. -/
def mapInsert (m : List (String × Json)) (k : String) (v : Json) : List (String × Json) :=
  if (jlookup m k).isSome then
    m.map (fun p => if p.1 = k then (k, v) else p)
  else
    m ++ [(k, v)]

/-- The `for attr in attributes { if present, insert }` loop of element translation. -/
def addAttrs (obj : List (String × Json)) (attrs : List String)
    (d : List (String × Json)) : List (String × Json) :=
  attrs.foldl
    (fun d a =>
      match jlookup obj a with
      | some val => mapInsert d a val
      | none => d)
    d

/-- Translation of one vertex document to its export `data` map
    (`None` = dropped: not an object, or no `_id`). -/
def nodeDataOf (vattrs : List String) (v : Json) : Option (List (String × Json)) :=
  match v.asObj with
  | none => none
  | some obj =>
    match jlookup obj "_id" with
    | none => none
    | some id => some (addAttrs obj vattrs (mapInsert (mapInsert [] "id" id) "name" id))

/-- Translation of one edge document to its export `data` map.
    `.ok none` = dropped (not an object, or no `_key`); `.error ()` = the
    `obj.get("_from").unwrap()` / `obj.get("_to").unwrap()` panic when `_key`
    is present but an endpoint field is missing. -/
def edgeDataOf (eattrs : List String) (e : Json) :
    Except Unit (Option (List (String × Json))) :=
  match e.asObj with
  | none => .ok none
  | some obj =>
    match jlookup obj "_key" with
    | none => .ok none
    | some id =>
      match jlookup obj "_from", jlookup obj "_to" with
      | some f, some t =>
        .ok (some (addAttrs obj eattrs
          (mapInsert (mapInsert (mapInsert [] "id" id) "source" f) "target" t)))
      | _, _ => .error ()

/-- Amended-claim description (refinement spec) of the emitted edge data map:
    the value an export edge's data carries at key `x`, for an edge document
    `obj` with `_key` value `k`, `_from` value `f`, `_to` value `t` and
    discovered edge attributes `eattrs`.  A discovered attribute present on the
    element wins (it overwrites even the id/source/target entries); otherwise
    the three fixed entries hold. -/
def edgeDataSpec (obj : List (String × Json)) (eattrs : List String)
    (k f t : Json) (x : String) : Option Json :=
  if x ∈ eattrs ∧ (jlookup obj x).isSome then jlookup obj x
  else if x = "id" then some k
  else if x = "source" then some f
  else if x = "target" then some t
  else none

/-- A request issued by the exporter against the visualization service. -/
inductive CyReq where
  | createNetwork
  | nodeColumn (name ctype : String)
  | edgeColumn (name ctype : String)
  | layout
deriving Repr, DecidableEq

/-- Scripted responses of the visualization service: the network-creation
    response (send + JSON decode combined), the transport outcome of the i-th
    column request, and of the layout request.  Column and layout response
    bodies and statuses are never inspected by the code, so only their
    transport outcome is modelled. -/
structure CyWorld where
  networkResp : Except String Json
  columnResp : Nat → Except String Unit
  layoutResp : Except String Unit

/-- Result of a run of `send_to_cytoscape`. -/
inductive SendResult where
  | ok
  | err (msg : String)
  | panicked
deriving Repr, DecidableEq

/-- Trace of issued requests plus the final outcome. -/
structure SendOutput where
  trace : List CyReq
  result : SendResult
deriving Repr, DecidableEq

/-- One column-provisioning loop: issue one request per column, abort on the
    first transport failure (`send().await?`); returns the issued requests and
    either the first error or the next response index. -/
def postColumns (resp : Nat → Except String Unit) (mk : String → String → CyReq) :
    List (String × String) → Nat → List CyReq × Except String Nat
  | [], i => ([], .ok i)
  | (a, t) :: rest, i =>
    match resp i with
    | .error e => ([mk a t], .error e)
    | .ok _ =>
      let (tr, r) := postColumns resp mk rest (i + 1)
      (mk a t :: tr, r)

/-- `send_to_cytoscape` from src/cytoscape.rs, over the scripted service. -/
def send_to_cytoscape (w : CyWorld) (vertices edges : Json) : SendOutput :=
  match vertices.asArr with
  | none => ⟨[], .err "Vertices must be an array"⟩
  | some varr =>
    match edges.asArr with
    | none => ⟨[], .err "Edges must be an array"⟩
    | some earr =>
      let eattrs := collect_attributes earr
      if (earr.map (edgeDataOf eattrs)).any
          (fun r => match r with | .error _ => true | .ok _ => false) then
        ⟨[], .panicked⟩
      else
        match w.networkResp with
        | .error e => ⟨[.createNetwork], .err e⟩
        | .ok resp =>
          match (resp.index "networkSUID").asI64 with
          | none => ⟨[.createNetwork], .err "Failed to get network SUID"⟩
          | some _ =>
            match postColumns w.columnResp .nodeColumn (columnsOf varr) 0 with
            | (tr1, .error e) => ⟨.createNetwork :: tr1, .err e⟩
            | (tr1, .ok i) =>
              match postColumns w.columnResp .edgeColumn (columnsOf earr) i with
              | (tr2, .error e) => ⟨.createNetwork :: (tr1 ++ tr2), .err e⟩
              | (tr2, .ok _) =>
                match w.layoutResp with
                | .error e => ⟨.createNetwork :: (tr1 ++ tr2 ++ [.layout]), .err e⟩
                | .ok _ => ⟨.createNetwork :: (tr1 ++ tr2 ++ [.layout]), .ok⟩

/-! ## Basic lemmas about the set and loop models -/

theorem asObj_eq_some {v : Json} {l : List (String × Json)} :
    v.asObj = some l ↔ v = .obj l := by
  cases v <;> simp [Json.asObj]

theorem asStr_eq_some {v : Json} {s : String} :
    v.asStr = some s ↔ v = .str s := by
  cases v <;> simp [Json.asStr]

theorem asObj_obj {l : List (String × Json)} : (Json.obj l).asObj = some l := rfl

theorem asStr_str {s : String} : (Json.str s).asStr = some s := rfl

theorem mem_insertNew {s : List String} {x y : String} :
    y ∈ insertNew s x ↔ y ∈ s ∨ y = x := by
  unfold insertNew
  split
  · rename_i hx
    constructor
    · exact Or.inl
    · rintro (h | rfl)
      · exact h
      · exact hx
  · simp

theorem insertNew_nodup {s : List String} {x : String} (h : s.Nodup) :
    (insertNew s x).Nodup := by
  unfold insertNew
  split
  · exact h
  · rename_i hx
    simpa [List.nodup_append, h] using hx

/-- An accepted element advances the `is_graph` loop by `stepOk`. -/
theorem processItem_ok (st : GState) (item : Json) (h : elemError item = none) :
    processItem st item = .ok (stepOk st item) := by
  unfold elemError at h
  repeat' split at h
  all_goals simp_all [processItem, stepOk, edgeEnds, vertexId]

/-- A disqualifying element makes the `is_graph` loop fail with its error object. -/
theorem processItem_error (st : GState) (item : Json) (e : Json)
    (h : elemError item = some e) :
    processItem st item = .error e := by
  unfold elemError at h
  repeat' split at h
  all_goals simp_all [processItem]

/-- Shape analysis of an accepted element: it is a valid edge or a valid vertex. -/
theorem elemError_none_elim (item : Json) (h : elemError item = none) :
    (∃ fs ts, edgeEnds item = some (fs, ts) ∧ edgeShaped item = true ∧
       item.get "_from" = some (.str fs) ∧ item.get "_to" = some (.str ts) ∧
       slashCount fs = 1 ∧ slashCount ts = 1) ∨
    (∃ ids, edgeEnds item = none ∧ vertexId item = some ids ∧ edgeShaped item = false ∧
       item.get "_id" = some (.str ids) ∧ slashCount ids = 1) := by
  unfold elemError at h
  repeat' split at h
  all_goals simp_all [edgeEnds, vertexId, edgeShaped, Json.get,
    asObj_eq_some, asStr_eq_some, asObj_obj, asStr_str]
  · rename_i hc
    exact ⟨_, _, ⟨rfl, rfl⟩, rfl, rfl, hc.1, hc.2⟩
  · rename_i hnb hid hide hsc
    intro hf
    rcases Option.isSome_iff_exists.mp hf with ⟨f, hfe⟩
    by_contra hne
    rcases Option.ne_none_iff_exists'.mp hne with ⟨t, hte⟩
    exact hnb f t hfe hte

theorem stepOk_edge (st : GState) (x : Json) {fs ts : String}
    (he : edgeEnds x = some (fs, ts)) :
    stepOk st x =
      { st with
        vertex_ids_needed := insertNew (insertNew st.vertex_ids_needed fs) ts,
        edges := st.edges ++ [x] } := by
  simp [stepOk, he]

theorem stepOk_vertex (st : GState) (x : Json) {ids : String}
    (he : edgeEnds x = none) (hv : vertexId x = some ids) :
    stepOk st x =
      { st with
        vertex_ids := insertNew st.vertex_ids ids,
        vertices := st.vertices ++ [x] } := by
  simp [stepOk, he, hv]

/-- Full characterization of a successful run of the classification loop:
    edges and vertices are the input filtered by shape (in order), and the two
    id sets hold exactly the present and needed ids. -/
theorem isGraphLoop_ok (l : List Json) (st : GState) (h : ∀ x ∈ l, elemError x = none) :
    ∃ st', isGraphLoop l st = .ok st' ∧
      st'.edges = st.edges ++ l.filter edgeShaped ∧
      st'.vertices = st.vertices ++ l.filter (fun x => !edgeShaped x) ∧
      (∀ s, s ∈ st'.vertex_ids ↔ s ∈ st.vertex_ids ∨
        ∃ x ∈ l, edgeShaped x = false ∧ x.get "_id" = some (.str s)) ∧
      (∀ s, s ∈ st'.vertex_ids_needed ↔ s ∈ st.vertex_ids_needed ∨
        ∃ x ∈ l, edgeShaped x = true ∧
          (x.get "_from" = some (.str s) ∨ x.get "_to" = some (.str s))) ∧
      (st.vertex_ids.Nodup → st'.vertex_ids.Nodup) ∧
      (st.vertex_ids_needed.Nodup → st'.vertex_ids_needed.Nodup) := by
  induction l generalizing st with
  | nil =>
    exact ⟨st, rfl, by simp, by simp, by simp, by simp, fun h => h, fun h => h⟩
  | cons x rest ih =>
    have hx : elemError x = none := h x (by simp)
    have hrest : ∀ y ∈ rest, elemError y = none := fun y hy => h y (by simp [hy])
    rcases ih (stepOk st x) hrest with ⟨st', hloop, he, hv, hids, hneed, hnd1, hnd2⟩
    have hstep : processItem st x = .ok (stepOk st x) := processItem_ok st x hx
    have hloop' : isGraphLoop (x :: rest) st = .ok st' := by
      simp only [isGraphLoop, hstep, hloop]
    rcases elemError_none_elim x hx with
      ⟨fs, ts, hee, hshape, hgf, hgt, hcf, hct⟩ | ⟨ids, hee, hvid, hshape, hgid, hcid⟩
    · refine ⟨st', hloop', ?_, ?_, ?_, ?_, ?_, ?_⟩
      · rw [he, stepOk_edge st x hee]
        simp [hshape]
      · rw [hv, stepOk_edge st x hee]
        simp [hshape]
      · intro s
        rw [hids s, stepOk_edge st x hee]
        simp only [List.mem_cons]
        constructor
        · rintro (hs | ⟨y, hy, hsh, hid⟩)
          · exact Or.inl hs
          · exact Or.inr ⟨y, Or.inr hy, hsh, hid⟩
        · rintro (hs | ⟨y, rfl | hy, hsh, hid⟩)
          · exact Or.inl hs
          · rw [hshape] at hsh
            cases hsh
          · exact Or.inr ⟨y, hy, hsh, hid⟩
      · intro s
        rw [hneed s, stepOk_edge st x hee]
        simp only [List.mem_cons, mem_insertNew]
        constructor
        · rintro (((hs | rfl) | rfl) | ⟨y, hy, hsh, hor⟩)
          · exact Or.inl hs
          · exact Or.inr ⟨x, Or.inl rfl, hshape, Or.inl hgf⟩
          · exact Or.inr ⟨x, Or.inl rfl, hshape, Or.inr hgt⟩
          · exact Or.inr ⟨y, Or.inr hy, hsh, hor⟩
        · rintro (hs | ⟨y, rfl | hy, hsh, hor⟩)
          · exact Or.inl (Or.inl (Or.inl hs))
          · rcases hor with hf | ht
            · rw [hgf] at hf
              simp only [Option.some.injEq, Json.str.injEq] at hf
              exact Or.inl (Or.inl (Or.inr hf.symm))
            · rw [hgt] at ht
              simp only [Option.some.injEq, Json.str.injEq] at ht
              exact Or.inl (Or.inr ht.symm)
          · exact Or.inr ⟨y, hy, hsh, hor⟩
      · intro hnd
        apply hnd1
        rw [stepOk_edge st x hee]
        exact hnd
      · intro hnd
        apply hnd2
        rw [stepOk_edge st x hee]
        exact insertNew_nodup (insertNew_nodup hnd)
    · refine ⟨st', hloop', ?_, ?_, ?_, ?_, ?_, ?_⟩
      · rw [he, stepOk_vertex st x hee hvid]
        simp [hshape]
      · rw [hv, stepOk_vertex st x hee hvid]
        simp [hshape]
      · intro s
        rw [hids s, stepOk_vertex st x hee hvid]
        simp only [List.mem_cons, mem_insertNew]
        constructor
        · rintro ((hs | rfl) | ⟨y, hy, hsh, hid⟩)
          · exact Or.inl hs
          · exact Or.inr ⟨x, Or.inl rfl, hshape, hgid⟩
          · exact Or.inr ⟨y, Or.inr hy, hsh, hid⟩
        · rintro (hs | ⟨y, rfl | hy, hsh, hid⟩)
          · exact Or.inl (Or.inl hs)
          · rw [hgid] at hid
            simp only [Option.some.injEq, Json.str.injEq] at hid
            exact Or.inl (Or.inr hid.symm)
          · exact Or.inr ⟨y, hy, hsh, hid⟩
      · intro s
        rw [hneed s, stepOk_vertex st x hee hvid]
        simp only [List.mem_cons]
        constructor
        · rintro (hs | ⟨y, hy, hsh, hor⟩)
          · exact Or.inl hs
          · exact Or.inr ⟨y, Or.inr hy, hsh, hor⟩
        · rintro (hs | ⟨y, rfl | hy, hsh, hor⟩)
          · exact Or.inl hs
          · rw [hshape] at hsh
            cases hsh
          · exact Or.inr ⟨y, hy, hsh, hor⟩
      · intro hnd
        apply hnd1
        rw [stepOk_vertex st x hee hvid]
        exact insertNew_nodup hnd
      · intro hnd
        apply hnd2
        rw [stepOk_vertex st x hee hvid]
        exact hnd

/-- A successful loop run implies every element was accepted. -/
theorem isGraphLoop_ok_elems (l : List Json) (st st' : GState)
    (h : isGraphLoop l st = .ok st') : ∀ x ∈ l, elemError x = none := by
  induction l generalizing st with
  | nil => simp
  | cons x rest ih =>
    intro y hy
    cases he : elemError x with
    | some e =>
      rw [isGraphLoop, processItem_error st x e he] at h
      exact absurd h (by simp)
    | none =>
      rw [isGraphLoop, processItem_ok st x he] at h
      rcases List.mem_cons.mp hy with rfl | hy'
      · exact he
      · exact ih (stepOk st x) h y hy'

/-- The loop fails with the error of the first disqualifying element. -/
theorem isGraphLoop_first_error (pre : List Json) (x : Json) (post : List Json)
    (st : GState) (e : Json)
    (hpre : ∀ y ∈ pre, elemError y = none) (hx : elemError x = some e) :
    isGraphLoop (pre ++ x :: post) st = .error e := by
  induction pre generalizing st with
  | nil => simp [isGraphLoop, processItem_error st x e hx]
  | cons y pre ih =>
    have hy : elemError y = none := hpre y (by simp)
    simp only [List.cons_append, isGraphLoop, processItem_ok st y hy]
    exact ih _ (fun z hz => hpre z (by simp [hz]))

/-- Master description of a successful classification: output edges and
    vertices are the shape-filtered input (in input order) followed, for the
    vertices, by one placeholder per needed-but-absent id. -/
theorem is_graph_ok_parts (l : List Json) (h : ∀ x ∈ l, elemError x = none)
    (hedge : ∃ x ∈ l, edgeShaped x = true) :
    ∃ ph : List String,
      is_graph l = .ok (.arr (l.filter (fun x => !edgeShaped x) ++ ph.map placeholder),
                        .arr (l.filter edgeShaped)) ∧
      ph.Nodup ∧
      (∀ s, s ∈ ph ↔
        (∃ x ∈ l, edgeShaped x = true ∧
           (x.get "_from" = some (.str s) ∨ x.get "_to" = some (.str s))) ∧
        ¬∃ x ∈ l, edgeShaped x = false ∧ x.get "_id" = some (.str s)) := by
  rcases isGraphLoop_ok l ⟨[], [], [], []⟩ h with
    ⟨st', hloop, he, hv, hids, hneed, _, hnd2⟩
  simp only [List.nil_append] at he hv
  have hne : st'.edges.isEmpty = false := by
    rcases hedge with ⟨x, hx, hsh⟩
    have hmem : x ∈ st'.edges := by
      rw [he]
      exact List.mem_filter.mpr ⟨hx, hsh⟩
    have hnil : st'.edges ≠ [] := by
      intro hnil
      rw [hnil] at hmem
      cases hmem
    cases h2 : st'.edges with
    | nil => exact absurd h2 hnil
    | cons a t => rfl
  refine ⟨st'.vertex_ids_needed.filter (fun s => s ∉ st'.vertex_ids), ?_, ?_, ?_⟩
  · have hne' : (List.filter edgeShaped l).isEmpty = false := by
      rw [← he]
      exact hne
    unfold is_graph
    rw [hloop]
    simp [he, hv, hne']
  · exact List.Nodup.filter _ (hnd2 List.nodup_nil)
  · intro s
    simp only [List.mem_filter, decide_eq_true_eq]
    rw [hids s, hneed s]
    simp only [List.not_mem_nil, false_or]

theorem placeholder_get {s : String} : (placeholder s).get "_id" = some (.str s) := by
  simp [placeholder, Json.get, jlookup]

/-- C1: on every input array whose elements are all well-formed vertices or
    edges (none is disqualifying) and that contains at least one edge,
    `is_graph` succeeds; every `_from`/`_to` value of a returned edge equals
    the `_id` of some vertex in the returned vertex array; and every needed
    endpoint id carried by no explicit vertex document appears as the
    synthesized placeholder vertex carrying only `_id`. -/
theorem is_graph_success_covers_endpoints (l : List Json)
    (hwf : ∀ x ∈ l, elemError x = none)
    (hedge : ∃ x ∈ l, edgeShaped x = true) :
    ∃ vs es : List Json, is_graph l = .ok (.arr vs, .arr es) ∧
      (∀ e ∈ es, ∀ s : String,
         (e.get "_from" = some (.str s) ∨ e.get "_to" = some (.str s)) →
         ∃ v ∈ vs, v.get "_id" = some (.str s)) ∧
      (∀ s : String,
         (∃ e ∈ es, e.get "_from" = some (.str s) ∨ e.get "_to" = some (.str s)) →
         (∀ x ∈ l, edgeShaped x = false → ¬x.get "_id" = some (.str s)) →
         placeholder s ∈ vs) := by
  rcases is_graph_ok_parts l hwf hedge with ⟨ph, hok, hnd, hmem⟩
  refine ⟨_, _, hok, ?_, ?_⟩
  · intro e he s hs
    have hel : e ∈ l ∧ edgeShaped e = true := List.mem_filter.mp he
    by_cases hex : ∃ x ∈ l, edgeShaped x = false ∧ x.get "_id" = some (.str s)
    · rcases hex with ⟨x, hx, hsh, hid⟩
      exact ⟨x, List.mem_append_left _ (List.mem_filter.mpr ⟨hx, by simp [hsh]⟩), hid⟩
    · have hphs : s ∈ ph := (hmem s).mpr ⟨⟨e, hel.1, hel.2, hs⟩, hex⟩
      exact ⟨placeholder s,
        List.mem_append_right _ (List.mem_map.mpr ⟨s, hphs, rfl⟩), placeholder_get⟩
  · intro s hs hnov
    have hnex : ¬∃ x ∈ l, edgeShaped x = false ∧ x.get "_id" = some (.str s) := by
      rintro ⟨x, hx, hsh, hid⟩
      exact hnov x hx hsh hid
    rcases hs with ⟨e, he, hor⟩
    have hel := List.mem_filter.mp he
    have hphs : s ∈ ph := (hmem s).mpr ⟨⟨e, hel.1, hel.2, hor⟩, hnex⟩
    exact List.mem_append_right _ (List.mem_map.mpr ⟨s, hphs, rfl⟩)

theorem is_graph_success_covers_endpoints_witness :
    ∃ vs es : List Json,
      is_graph [Json.obj [("_id", Json.str "v/1")],
                Json.obj [("_from", Json.str "v/1"), ("_to", Json.str "v/2")]] =
        .ok (.arr vs, .arr es) ∧
      (∀ e ∈ es, ∀ s : String,
         (e.get "_from" = some (.str s) ∨ e.get "_to" = some (.str s)) →
         ∃ v ∈ vs, v.get "_id" = some (.str s)) ∧
      (∀ s : String,
         (∃ e ∈ es, e.get "_from" = some (.str s) ∨ e.get "_to" = some (.str s)) →
         (∀ x ∈ [Json.obj [("_id", Json.str "v/1")],
                 Json.obj [("_from", Json.str "v/1"), ("_to", Json.str "v/2")]],
            edgeShaped x = false → ¬x.get "_id" = some (.str s)) →
         placeholder s ∈ vs) :=
  is_graph_success_covers_endpoints _ (by decide) (by decide)

theorem exists_first_bad {l : List Json} (h : ∃ x ∈ l, elemError x ≠ none) :
    ∃ pre x post e, l = pre ++ x :: post ∧ elemError x = some e ∧
      ∀ y ∈ pre, elemError y = none := by
  induction l with
  | nil => simp at h
  | cons a rest ih =>
    cases ha : elemError a with
    | some e => exact ⟨[], a, rest, e, rfl, ha, by simp⟩
    | none =>
      have hr : ∃ x ∈ rest, elemError x ≠ none := by
        rcases h with ⟨x, hx, hne⟩
        rcases List.mem_cons.mp hx with rfl | hx'
        · exact absurd ha hne
        · exact ⟨x, hx', hne⟩
      rcases ih hr with ⟨pre, x, post, e, rfl, hx, hpre⟩
      refine ⟨a :: pre, x, post, e, rfl, hx, ?_⟩
      intro y hy
      rcases List.mem_cons.mp hy with rfl | hy'
      · exact ha
      · exact hpre y hy'

theorem is_graph_first_err (pre : List Json) (x : Json) (post : List Json) (e : Json)
    (hpre : ∀ y ∈ pre, elemError y = none) (hx : elemError x = some e) :
    is_graph (pre ++ x :: post) = .error e := by
  unfold is_graph
  rw [isGraphLoop_first_error pre x post _ e hpre hx]

theorem is_graph_no_edges (l : List Json) (hall : ∀ x ∈ l, elemError x = none)
    (hno : ∀ x ∈ l, edgeShaped x = false) : is_graph l = .error noEdgesErr := by
  rcases isGraphLoop_ok l ⟨[], [], [], []⟩ hall with ⟨st', hloop, he, _⟩
  have hfe : l.filter edgeShaped = [] := by
    apply List.filter_eq_nil_iff.mpr
    intro a ha
    simp [hno a ha]
  unfold is_graph
  rw [hloop]
  have hie : st'.edges.isEmpty = true := by
    rw [he, hfe]
    rfl
  simp [hie]

/-- C3: `is_graph` fails exactly when some element is disqualifying or no
    element is edge-shaped; when an element is disqualifying, the error is the
    error object of the first such element (carrying it); when all elements are
    accepted but none is an edge the error is the no-valid-edges object; the
    empty array always fails with the no-valid-edges object. -/
theorem is_graph_error_characterization (l : List Json) :
    ((∃ e, is_graph l = .error e) ↔
      (∃ x ∈ l, elemError x ≠ none) ∨ ∀ x ∈ l, edgeShaped x = false) ∧
    (∀ pre x post e, l = pre ++ x :: post → (∀ y ∈ pre, elemError y = none) →
       elemError x = some e → is_graph l = .error e) ∧
    ((∀ x ∈ l, elemError x = none) → (∀ x ∈ l, edgeShaped x = false) →
       is_graph l = .error noEdgesErr) ∧
    is_graph ([] : List Json) = .error noEdgesErr := by
  have hfirst : ∀ pre x post e, l = pre ++ x :: post →
      (∀ y ∈ pre, elemError y = none) → elemError x = some e →
      is_graph l = .error e := by
    intro pre x post e hl hpre hx
    subst hl
    exact is_graph_first_err pre x post e hpre hx
  refine ⟨⟨?_, ?_⟩, hfirst, is_graph_no_edges l, rfl⟩
  · rintro ⟨e, herr⟩
    by_contra hno
    push_neg at hno
    rcases hno with ⟨h1, h2⟩
    have hall : ∀ x ∈ l, elemError x = none := by
      intro x hx
      have := h1 x hx
      simpa using this
    rcases h2 with ⟨x, hx, hsh⟩
    have hsh' : edgeShaped x = true := by
      cases he : edgeShaped x
      · exact absurd he hsh
      · rfl
    rcases is_graph_ok_parts l hall ⟨x, hx, hsh'⟩ with ⟨ph, hok, _⟩
    rw [hok] at herr
    cases herr
  · rintro (hbad | hno)
    · rcases exists_first_bad hbad with ⟨pre, x, post, e, hl, hx, hpre⟩
      exact ⟨e, hfirst pre x post e hl hpre hx⟩
    · by_cases hall : ∀ x ∈ l, elemError x = none
      · exact ⟨noEdgesErr, is_graph_no_edges l hall hno⟩
      · push_neg at hall
        rcases hall with ⟨x, hx, hne⟩
        rcases exists_first_bad ⟨x, hx, hne⟩ with ⟨pre, y, post, e, hl, hy, hpre⟩
        exact ⟨e, hfirst pre y post e hl hpre hy⟩

theorem is_graph_error_characterization_witness :
    is_graph [Json.num 3] =
      .error (errObj "Array contains non-object elements" (Json.num 3)) :=
  (is_graph_error_characterization [Json.num 3]).2.1 [] (Json.num 3) [] _
    rfl (by decide) (by decide)

/-- Inversion: a successful classification means every element was accepted
    and at least one was edge-shaped. -/
theorem is_graph_ok_inv (l : List Json) (p : Json × Json) (h : is_graph l = .ok p) :
    (∀ x ∈ l, elemError x = none) ∧ ∃ x ∈ l, edgeShaped x = true := by
  have hall : ∀ x ∈ l, elemError x = none := by
    unfold is_graph at h
    cases hloop : isGraphLoop l ⟨[], [], [], []⟩ with
    | error e =>
      rw [hloop] at h
      cases h
    | ok st => exact isGraphLoop_ok_elems l _ _ hloop
  refine ⟨hall, ?_⟩
  by_contra hno
  push_neg at hno
  have hno' : ∀ x ∈ l, edgeShaped x = false := by
    intro x hx
    cases he : edgeShaped x
    · rfl
    · exact absurd he (hno x hx)
  have herr := is_graph_no_edges l hall hno'
  rw [h] at herr
  cases herr

/-- The output tuple of a successful run, identified with the master description. -/
theorem is_graph_ok_shape (l vs es : List Json)
    (h : is_graph l = .ok (.arr vs, .arr es)) :
    ∃ ph : List String,
      vs = l.filter (fun x => !edgeShaped x) ++ ph.map placeholder ∧
      es = l.filter edgeShaped ∧
      ph.Nodup ∧
      (∀ s, s ∈ ph ↔
        (∃ x ∈ l, edgeShaped x = true ∧
           (x.get "_from" = some (.str s) ∨ x.get "_to" = some (.str s))) ∧
        ¬∃ x ∈ l, edgeShaped x = false ∧ x.get "_id" = some (.str s)) := by
  rcases is_graph_ok_inv l _ h with ⟨hwf, hedge⟩
  rcases is_graph_ok_parts l hwf hedge with ⟨ph, hok, hnd, hmem⟩
  rw [h] at hok
  injection hok with hp
  injection hp with h1 h2
  injection h1 with h1
  injection h2 with h2
  exact ⟨ph, h1, h2, hnd, hmem⟩

/-- C10: classification never deduplicates explicit input documents — the
    output edge list is exactly the edge-shaped input elements in input order
    (duplicates included) and the output vertex list is exactly the non-edge
    input elements in input order (duplicates included) followed by the
    synthesized placeholders; placeholders are pairwise distinct and none is
    created for an id carried by an explicitly supplied vertex. -/
theorem is_graph_no_dedup_explicit (l vs es : List Json)
    (h : is_graph l = .ok (.arr vs, .arr es)) :
    es = l.filter edgeShaped ∧
    ∃ ph : List String,
      vs = l.filter (fun x => !edgeShaped x) ++ ph.map placeholder ∧
      ph.Nodup ∧
      ∀ s ∈ ph, ¬∃ x ∈ l, edgeShaped x = false ∧ x.get "_id" = some (.str s) := by
  rcases is_graph_ok_shape l vs es h with ⟨ph, h1, h2, hnd, hmem⟩
  exact ⟨h2, ph, h1, hnd, fun s hs => ((hmem s).mp hs).2⟩

theorem is_graph_no_dedup_explicit_witness :
    (let a : Json := .obj [("_id", Json.str "v/1")]
     let e : Json := .obj [("_from", Json.str "v/1"), ("_to", Json.str "v/2")]
     [e] = List.filter edgeShaped [a, a, e] ∧
     ∃ ph : List String,
       [a, a, placeholder "v/2"] =
         List.filter (fun x => !edgeShaped x) [a, a, e] ++ ph.map placeholder ∧
       ph.Nodup ∧
       ∀ s ∈ ph, ¬∃ x ∈ [a, a, e],
         edgeShaped x = false ∧ x.get "_id" = some (.str s)) :=
  is_graph_no_dedup_explicit _ _ _ rfl

theorem placeholder_not_edgeShaped {s : String} : edgeShaped (placeholder s) = false := by
  have h1 : ("_id" : String) ≠ "_from" := by decide
  simp [edgeShaped, placeholder, Json.asObj, jlookup, h1]

theorem placeholder_elemError {s : String} (h : slashCount s = 1) :
    elemError (placeholder s) = none := by
  have h1 : ("_id" : String) ≠ "_from" := by decide
  have h2 : ("_id" : String) ≠ "_to" := by decide
  simp [elemError, placeholder, Json.asObj, jlookup, Json.asStr, h1, h2, h]

/-- Every endpoint id referenced by a well-formed edge has exactly one '/'. -/
theorem endpoint_slashCount {l : List Json} (hwf : ∀ x ∈ l, elemError x = none)
    {s : String}
    (hx : ∃ x ∈ l, edgeShaped x = true ∧
       (x.get "_from" = some (.str s) ∨ x.get "_to" = some (.str s))) :
    slashCount s = 1 := by
  rcases hx with ⟨x, hxl, hsh, hor⟩
  rcases elemError_none_elim x (hwf x hxl) with
    ⟨fs, ts, _, _, hgf, hgt, hcf, hct⟩ | ⟨ids, _, _, hsh', _, _⟩
  · rcases hor with hf | ht
    · rw [hgf] at hf
      simp only [Option.some.injEq, Json.str.injEq] at hf
      rwa [← hf]
    · rw [hgt] at ht
      simp only [Option.some.injEq, Json.str.injEq] at ht
      rwa [← ht]
  · rw [hsh'] at hsh
    cases hsh

/-- C4: idempotence — if `is_graph` succeeds with output vertex and edge
    arrays, re-running it on their concatenation succeeds and returns literally
    the same vertex and edge arrays: the synthesized placeholders are accepted
    as well-formed vertices and no new placeholder is synthesized. -/
theorem is_graph_idempotent (l vs es : List Json)
    (h : is_graph l = .ok (.arr vs, .arr es)) :
    is_graph (vs ++ es) = .ok (.arr vs, .arr es) := by
  rcases is_graph_ok_inv l _ h with ⟨hwf, hedge⟩
  rcases is_graph_ok_shape l vs es h with ⟨ph, hvs, hes, hnd, hmem⟩
  have hVwf : ∀ x ∈ vs, elemError x = none ∧ edgeShaped x = false := by
    intro x hx
    rw [hvs] at hx
    rcases List.mem_append.mp hx with hx1 | hx2
    · have hm := List.mem_filter.mp hx1
      refine ⟨hwf x hm.1, by simpa using hm.2⟩
    · rcases List.mem_map.mp hx2 with ⟨s, hs, rfl⟩
      have hsc : slashCount s = 1 := endpoint_slashCount hwf ((hmem s).mp hs).1
      exact ⟨placeholder_elemError hsc, placeholder_not_edgeShaped⟩
  have hEwf : ∀ x ∈ es, elemError x = none ∧ edgeShaped x = true := by
    intro x hx
    rw [hes] at hx
    have hm := List.mem_filter.mp hx
    exact ⟨hwf x hm.1, hm.2⟩
  have hwf2 : ∀ x ∈ vs ++ es, elemError x = none := by
    intro x hx
    rcases List.mem_append.mp hx with hx | hx
    · exact (hVwf x hx).1
    · exact (hEwf x hx).1
  have hedge2 : ∃ x ∈ vs ++ es, edgeShaped x = true := by
    rcases hedge with ⟨x, hx, hsh⟩
    refine ⟨x, List.mem_append_right _ ?_, hsh⟩
    rw [hes]
    exact List.mem_filter.mpr ⟨hx, hsh⟩
  rcases is_graph_ok_parts (vs ++ es) hwf2 hedge2 with ⟨ph2, hok2, hnd2, hmem2⟩
  have hfE : (vs ++ es).filter edgeShaped = es := by
    rw [List.filter_append]
    have h1 : vs.filter edgeShaped = [] :=
      List.filter_eq_nil_iff.mpr (fun a ha => by simp [(hVwf a ha).2])
    have h2 : es.filter edgeShaped = es :=
      List.filter_eq_self.mpr (fun a ha => (hEwf a ha).2)
    rw [h1, h2, List.nil_append]
  have hfV : (vs ++ es).filter (fun x => !edgeShaped x) = vs := by
    rw [List.filter_append]
    have h1 : vs.filter (fun x => !edgeShaped x) = vs :=
      List.filter_eq_self.mpr (fun a ha => by simp [(hVwf a ha).2])
    have h2 : es.filter (fun x => !edgeShaped x) = [] :=
      List.filter_eq_nil_iff.mpr (fun a ha => by simp [(hEwf a ha).2])
    rw [h1, h2, List.append_nil]
  have hph2 : ph2 = [] := by
    rw [List.eq_nil_iff_forall_not_mem]
    intro s hs
    rcases (hmem2 s).mp hs with ⟨⟨x, hx, hsh, hor⟩, hnver⟩
    have hxes : x ∈ es := by
      rcases List.mem_append.mp hx with hx | hx
      · rw [(hVwf x hx).2] at hsh
        cases hsh
      · exact hx
    have hxl : x ∈ l ∧ edgeShaped x = true := by
      rw [hes] at hxes
      exact List.mem_filter.mp hxes
    by_cases hexp : ∃ y ∈ l, edgeShaped y = false ∧ y.get "_id" = some (.str s)
    · rcases hexp with ⟨y, hy, hysh, hyid⟩
      apply hnver
      refine ⟨y, List.mem_append_left _ ?_, hysh, hyid⟩
      rw [hvs]
      exact List.mem_append_left _ (List.mem_filter.mpr ⟨hy, by simp [hysh]⟩)
    · have hsph : s ∈ ph := (hmem s).mpr ⟨⟨x, hxl.1, hxl.2, hor⟩, hexp⟩
      apply hnver
      refine ⟨placeholder s, List.mem_append_left _ ?_, placeholder_not_edgeShaped,
        placeholder_get⟩
      rw [hvs]
      exact List.mem_append_right _ (List.mem_map.mpr ⟨s, hsph, rfl⟩)
  rw [hok2, hfE, hfV, hph2]
  simp

theorem is_graph_idempotent_witness :
    is_graph [placeholder "a/b", placeholder "a/c",
              Json.obj [("_from", Json.str "a/b"), ("_to", Json.str "a/c")]] =
      .ok (.arr [placeholder "a/b", placeholder "a/c"],
           .arr [Json.obj [("_from", Json.str "a/b"), ("_to", Json.str "a/c")]]) :=
  is_graph_idempotent
    [Json.obj [("_from", Json.str "a/b"), ("_to", Json.str "a/c")]] _ _ rfl

theorem runCursorLoop_spec (pre : List Json) (last : Json) (acc : List Json)
    (hpre : ∀ c ∈ pre, contHasMore c = true) (hlast : contHasMore last = false) :
    runCursorLoop ((pre ++ [last]).map .ok) acc =
      .ok (acc ++ (pre.map batchOf).flatten ++ batchOf last) := by
  induction pre generalizing acc with
  | nil => simp [runCursorLoop, hlast]
  | cons c rest ih =>
    have hc : contHasMore c = true := hpre c (by simp)
    simp only [List.cons_append, List.map_cons, runCursorLoop, hc, if_true]
    refine (ih (acc ++ batchOf c) (fun d hd => hpre d (by simp [hd]))).trans ?_
    simp [List.append_assoc]

/-- C5: when the initial response reports `hasMore: true` (with a string cursor
    id) and the scripted continuation responses each report `hasMore` truthy
    except the final one, `execute_query` returns exactly the concatenation of
    all the batches' `result` arrays in arrival order: the initial batch first,
    then each continuation batch in request order. -/
theorem execute_query_concatenates_batches (ir : Json) (pre : List Json) (last : Json)
    (h1 : (ir.get "hasMore").bind Json.asBool = some true)
    (h2 : ((ir.index "id").asStr).isSome = true)
    (h3 : ∀ c ∈ pre, contHasMore c = true)
    (h4 : contHasMore last = false) :
    execute_query (.ok ir) ((pre ++ [last]).map .ok) =
      .ok (batchOf ir ++ (pre.map batchOf).flatten ++ batchOf last) := by
  rcases Option.isSome_iff_exists.mp h2 with ⟨cid, hcid⟩
  unfold execute_query
  simp only [h1, hcid]
  exact runCursorLoop_spec pre last (batchOf ir) h3 h4

theorem execute_query_concatenates_batches_witness :
    execute_query
      (.ok (Json.obj [("result", Json.arr [Json.num 1]), ("hasMore", Json.bool true),
                      ("id", Json.str "c")]))
      [.ok (Json.obj [("result", Json.arr [Json.num 2]), ("hasMore", Json.bool true)]),
       .ok (Json.obj [("result", Json.arr [Json.num 3]), ("hasMore", Json.bool true)]),
       .ok (Json.obj [("result", Json.arr [Json.num 4]), ("hasMore", Json.bool false)])] =
      .ok [Json.num 1, Json.num 2, Json.num 3, Json.num 4] := by
  have h := execute_query_concatenates_batches
    (Json.obj [("result", Json.arr [Json.num 1]), ("hasMore", Json.bool true),
               ("id", Json.str "c")])
    [Json.obj [("result", Json.arr [Json.num 2]), ("hasMore", Json.bool true)],
     Json.obj [("result", Json.arr [Json.num 3]), ("hasMore", Json.bool true)]]
    (Json.obj [("result", Json.arr [Json.num 4]), ("hasMore", Json.bool false)])
    (by rfl) (by rfl) (by decide) (by rfl)
  exact h.trans (by decide)

/-- C2 (counterexample): `execute_query` does not fail on a response missing
    the `result` field, and a continuation response missing `hasMore` makes it
    return the accumulated partial list as success rather than a distinct
    error — both contradicting the claimed failure conditions. -/
theorem execute_query_tolerant_cex :
    execute_query (.ok (Json.obj [("hasMore", Json.bool false)])) [] = .ok [] ∧
    execute_query
      (.ok (Json.obj [("result", Json.arr [Json.num 1]), ("hasMore", Json.bool true),
                      ("id", Json.str "c")]))
      [.ok (Json.obj [])] = .ok [Json.num 1] :=
  ⟨rfl, rfl⟩

/-- C2 (amended): `execute_query` fails exactly on a transport/decode failure
    of the initial request or of a continuation request it issues (fail-fast,
    first error returned); a response missing `result` contributes no
    documents; a continuation response with `hasMore` missing or non-boolean
    ends pagination and the accumulated — possibly partial — list is returned
    as success; the HTTP status is never inspected. -/
theorem execute_query_failure_modes :
    (∀ (e : String) conts, execute_query (.error e) conts = .err e) ∧
    (∀ ir (e : String) rest, (ir.get "hasMore").bind Json.asBool = some true →
       ((ir.index "id").asStr).isSome = true →
       execute_query (.ok ir) (.error e :: rest) = .err e) ∧
    (∀ ir conts, ir.get "result" = none →
       ¬(ir.get "hasMore").bind Json.asBool = some true →
       execute_query (.ok ir) conts = .ok []) ∧
    (∀ ir c rest, (ir.get "hasMore").bind Json.asBool = some true →
       ((ir.index "id").asStr).isSome = true →
       contHasMore c = false →
       execute_query (.ok ir) (.ok c :: rest) = .ok (batchOf ir ++ batchOf c)) := by
  refine ⟨fun e conts => rfl, ?_, ?_, ?_⟩
  · intro ir e rest h1 h2
    rcases Option.isSome_iff_exists.mp h2 with ⟨cid, hcid⟩
    unfold execute_query
    simp only [h1, hcid]
    rfl
  · intro ir conts hres hnm
    unfold execute_query
    cases hb : (ir.get "hasMore").bind Json.asBool with
    | none => simp [batchOf, hres]
    | some b =>
      cases b with
      | true => exact absurd hb hnm
      | false => simp [batchOf, hres]
  · intro ir c rest h1 h2 hcm
    rcases Option.isSome_iff_exists.mp h2 with ⟨cid, hcid⟩
    unfold execute_query
    simp only [h1, hcid]
    simp [runCursorLoop, hcm]

theorem execute_query_failure_modes_witness :
    execute_query
      (.ok (Json.obj [("result", Json.arr [Json.num 1]), ("hasMore", Json.bool true),
                      ("id", Json.str "c")]))
      [.error "connection refused"] = .err "connection refused" :=
  execute_query_failure_modes.2.1 _ "connection refused" [] (by rfl) (by rfl)

/-- C9 (code bug): an initial cursor response with `hasMore: true` but no `id`
    field drives `execute_query` into the `Option::unwrap` panic at
    src/main.rs line 107 instead of producing a structured error. -/
theorem execute_query_panics_on_missing_id :
    execute_query
      (.ok (Json.obj [("result", Json.arr []), ("hasMore", Json.bool true)])) [] =
      .panicked :=
  rfl

theorem mem_foldl_insertNew (ks : List String) (acc : List String) (x : String) :
    x ∈ ks.foldl insertNew acc ↔ x ∈ acc ∨ x ∈ ks := by
  induction ks generalizing acc with
  | nil => simp
  | cons k rest ih =>
    rw [List.foldl_cons, ih]
    simp only [mem_insertNew, List.mem_cons]
    tauto

theorem nodup_foldl_insertNew (ks : List String) (acc : List String) (h : acc.Nodup) :
    (ks.foldl insertNew acc).Nodup := by
  induction ks generalizing acc with
  | nil => exact h
  | cons k rest ih => exact ih _ (insertNew_nodup h)

theorem mem_collectStep (acc : List String) (o : Json) (a : String) :
    a ∈ collectStep acc o ↔
      a ∈ acc ∨ ∃ m, o.asObj = some m ∧ a ∈ m.map Prod.fst ∧ ¬startsWithUnderscore a := by
  unfold collectStep
  cases ho : o.asObj with
  | none => simp
  | some m =>
    rw [mem_foldl_insertNew]
    simp [List.mem_filter]

theorem collectStep_nodup (acc : List String) (o : Json) (h : acc.Nodup) :
    (collectStep acc o).Nodup := by
  unfold collectStep
  cases o.asObj with
  | none => exact h
  | some m => exact nodup_foldl_insertNew _ _ h

theorem mem_collect_foldl (objects : List Json) (acc : List String) (a : String) :
    a ∈ objects.foldl collectStep acc ↔
      a ∈ acc ∨ ∃ x ∈ objects, ∃ m, x.asObj = some m ∧ a ∈ m.map Prod.fst ∧
        ¬startsWithUnderscore a := by
  induction objects generalizing acc with
  | nil => simp
  | cons o rest ih =>
    rw [List.foldl_cons, ih, mem_collectStep]
    simp only [List.mem_cons]
    constructor
    · rintro ((h | ⟨m, hm, ha, hu⟩) | ⟨x, hx, hm⟩)
      · exact Or.inl h
      · exact Or.inr ⟨o, Or.inl rfl, m, hm, ha, hu⟩
      · exact Or.inr ⟨x, Or.inr hx, hm⟩
    · rintro (h | ⟨x, rfl | hx, hm⟩)
      · exact Or.inl (Or.inl h)
      · exact Or.inl (Or.inr hm)
      · exact Or.inr ⟨x, hx, hm⟩

theorem collect_attributes_nodup (objects : List Json) :
    (collect_attributes objects).Nodup := by
  unfold collect_attributes
  have h : ∀ acc : List String, acc.Nodup → (objects.foldl collectStep acc).Nodup := by
    induction objects with
    | nil => exact fun acc h => h
    | cons o rest ih => exact fun acc h => ih _ (collectStep_nodup acc o h)
  exact h [] List.nodup_nil

theorem mem_collect_attributes (objects : List Json) (a : String) :
    a ∈ collect_attributes objects ↔
      (∃ x ∈ objects, ∃ m, x.asObj = some m ∧ a ∈ m.map Prod.fst) ∧
      ¬startsWithUnderscore a := by
  unfold collect_attributes
  rw [mem_collect_foldl]
  simp only [List.not_mem_nil, false_or]
  constructor
  · rintro ⟨x, hx, m, hm, ha, hu⟩
    exact ⟨⟨x, hx, m, hm, ha⟩, hu⟩
  · rintro ⟨⟨x, hx, m, hm, ha⟩, hu⟩
    exact ⟨x, hx, m, hm, ha, hu⟩

theorem columnType_default (arr : List Json) (attr : String)
    (h : ∀ v ∈ arr, typedTag v attr = none) : columnType arr attr = "String" := by
  unfold columnType
  have hn : arr.findSome? (fun v => typedTag v attr) = none := by
    induction arr with
    | nil => rfl
    | cons v rest ih =>
      rw [List.findSome?_cons]
      rw [h v (by simp)]
      exact ih (fun u hu => h u (by simp [hu]))
  rw [hn]
  rfl

theorem columnType_first (pre : List Json) (v : Json) (post : List Json) (attr t : String)
    (hpre : ∀ u ∈ pre, typedTag u attr = none) (hv : typedTag v attr = some t) :
    columnType (pre ++ v :: post) attr = t := by
  unfold columnType
  have hf : (pre ++ v :: post).findSome? (fun u => typedTag u attr) = some t := by
    induction pre with
    | nil =>
      rw [List.nil_append, List.findSome?_cons, hv]
    | cons u rest ih =>
      rw [List.cons_append, List.findSome?_cons, hpre u (by simp)]
      exact ih (fun w hw => hpre w (by simp [hw]))
  rw [hf]
  rfl

/-- C6: the exporter provisions exactly one column per discovered attribute
    name (the column table is one `(name, type)` entry per entry of the
    duplicate-free discovered set, built independently for vertices and for
    edges by the same functions); an attribute is discovered iff it is a key of
    at least one object element and does not start with '_'; the column type is
    String/Double/Boolean after the JSON type of the first element in input
    order whose value for the attribute is a string, number or boolean,
    defaulting to String when no element has such a typed value. -/
theorem column_provisioning_spec (arr : List Json) :
    (columnsOf arr).map Prod.fst = collect_attributes arr ∧
    (collect_attributes arr).Nodup ∧
    (∀ a, a ∈ collect_attributes arr ↔
      (∃ x ∈ arr, ∃ m, x.asObj = some m ∧ a ∈ m.map Prod.fst) ∧
      ¬startsWithUnderscore a) ∧
    (∀ a, (a, columnType arr a) ∈ columnsOf arr ↔ a ∈ collect_attributes arr) ∧
    (∀ s : String, typeTag (.str s) = some "String") ∧
    (∀ n : Int, typeTag (.num n) = some "Double") ∧
    (∀ b : Bool, typeTag (.bool b) = some "Boolean") ∧
    (∀ a, (∀ v ∈ arr, typedTag v a = none) → columnType arr a = "String") ∧
    (∀ pre v post a t, arr = pre ++ v :: post →
       (∀ u ∈ pre, typedTag u a = none) → typedTag v a = some t →
       columnType arr a = t) := by
  refine ⟨?_, collect_attributes_nodup arr, mem_collect_attributes arr, ?_,
    fun s => rfl, fun n => rfl, fun b => rfl, columnType_default arr, ?_⟩
  · unfold columnsOf
    rw [List.map_map]
    exact List.map_id _
  · intro a
    unfold columnsOf
    constructor
    · intro h
      rcases List.mem_map.mp h with ⟨b, hb, hba⟩
      have : b = a := congrArg Prod.fst hba
      rwa [← this]
    · intro h
      exact List.mem_map.mpr ⟨a, h, rfl⟩
  · intro pre v post a t hl hpre hv
    rw [hl]
    exact columnType_first pre v post a t hpre hv

theorem column_provisioning_spec_witness :
    columnType [Json.obj [("x", Json.null)], Json.obj [("x", Json.num 3)]] "x" =
      "Double" :=
  (column_provisioning_spec
      [Json.obj [("x", Json.null)], Json.obj [("x", Json.num 3)]]).2.2.2.2.2.2.2.2
    [Json.obj [("x", Json.null)]] (Json.obj [("x", Json.num 3)]) [] "x" "Double"
    rfl (by decide) (by decide)

theorem jlookup_append_single (m : List (String × Json)) (k x : String) (v : Json) :
    jlookup (m ++ [(k, v)]) x =
      match jlookup m x with
      | some w => some w
      | none => if k = x then some v else none := by
  induction m with
  | nil => simp [jlookup]
  | cons p rest ih =>
    obtain ⟨k', v'⟩ := p
    by_cases h : k' = x <;> simp [jlookup, h, ih]

theorem jlookup_replaceKey (m : List (String × Json)) (k x : String) (v : Json) :
    jlookup (m.map (fun p => if p.1 = k then (k, v) else p)) x =
      if x = k then (if (jlookup m k).isSome then some v else none)
      else jlookup m x := by
  induction m with
  | nil => simp [jlookup]
  | cons p rest ih =>
    obtain ⟨k', v'⟩ := p
    simp only [List.map_cons]
    dsimp only
    by_cases h1 : k' = k
    · rw [if_pos h1]
      subst h1
      by_cases h2 : x = k'
      · subst h2
        simp [jlookup]
      · have h2' : ¬k' = x := fun hh => h2 hh.symm
        simp [jlookup, h2, h2', ih]
    · rw [if_neg h1]
      by_cases h2 : k' = x
      · subst h2
        have hx : ¬k' = k := h1
        simp [jlookup, hx]
      · by_cases h3 : x = k
        · subst h3
          simp [jlookup, h1, h2, ih]
        · simp [jlookup, h1, h2, h3, ih]

theorem jlookup_mapInsert (m : List (String × Json)) (k : String) (v : Json) (x : String) :
    jlookup (mapInsert m k v) x = if x = k then some v else jlookup m x := by
  unfold mapInsert
  split
  · rename_i hsome
    rw [jlookup_replaceKey]
    by_cases h : x = k <;> simp [h, hsome]
  · rename_i hnone
    rw [jlookup_append_single]
    by_cases h : x = k
    · subst h
      cases hm : jlookup m x with
      | some w =>
        rw [hm] at hnone
        simp at hnone
      | none => simp
    · cases hm : jlookup m x with
      | some w => simp [h]
      | none =>
        have h' : ¬k = x := fun hh => h hh.symm
        simp [h, h']

theorem jlookup_addAttrs (obj : List (String × Json)) (attrs : List String)
    (d : List (String × Json)) (x : String) :
    jlookup (addAttrs obj attrs d) x =
      if x ∈ attrs ∧ (jlookup obj x).isSome then jlookup obj x else jlookup d x := by
  induction attrs generalizing d with
  | nil => simp [addAttrs]
  | cons a rest ih =>
    have hstep : addAttrs obj (a :: rest) d =
        addAttrs obj rest
          (match jlookup obj a with
           | some val => mapInsert d a val
           | none => d) := by
      unfold addAttrs
      rw [List.foldl_cons]
    rw [hstep, ih]
    by_cases hmem : x ∈ rest ∧ (jlookup obj x).isSome = true
    · simp only [hmem, if_true]
      have : x ∈ a :: rest ∧ (jlookup obj x).isSome = true :=
        ⟨List.mem_cons_of_mem a hmem.1, hmem.2⟩
      simp [this]
    · simp only [hmem, if_false]
      by_cases hxa : x = a
      · subst hxa
        cases ho : jlookup obj x with
        | some val =>
          have hc : x ∈ x :: rest ∧ (jlookup obj x).isSome = true := by
            simp [ho]
          simp [jlookup_mapInsert, hc, ho]
        | none =>
          have hc : ¬(x ∈ x :: rest ∧ (jlookup obj x).isSome = true) := by
            simp [ho]
          simp [hc]
      · have hc : ¬(x ∈ a :: rest ∧ (jlookup obj x).isSome = true) := by
          intro hh
          rcases List.mem_cons.mp hh.1 with h1 | h1
          · exact hxa h1
          · exact hmem ⟨h1, hh.2⟩
        simp only [hc, if_false]
        cases ho : jlookup obj a with
        | some val => simp [jlookup_mapInsert, hxa]
        | none => rfl

/-- C7 (amended): element translation emits, for every edge document carrying a
    `_key` and both `_from` and `_to`, exactly one export edge whose data maps
    `id` to the `_key`, `source` to `_from` and `target` to `_to` — except that
    a discovered edge attribute present on the element overwrites an entry of
    the same name (`id`/`source`/`target` included) — plus every discovered
    edge attribute present on the element with its value; an edge document
    lacking `_key`, or not an object, is silently dropped with no error. -/
theorem export_edge_translation (eattrs : List String) (e : Json) :
    (∀ obj, e.asObj = some obj → jlookup obj "_key" = none →
       edgeDataOf eattrs e = .ok none) ∧
    (e.asObj = none → edgeDataOf eattrs e = .ok none) ∧
    (∀ obj k f t, e.asObj = some obj → jlookup obj "_key" = some k →
       jlookup obj "_from" = some f → jlookup obj "_to" = some t →
       ∃ d, edgeDataOf eattrs e = .ok (some d) ∧
         ∀ x, jlookup d x = edgeDataSpec obj eattrs k f t x) := by
  refine ⟨?_, ?_, ?_⟩
  · intro obj ho hk
    simp only [edgeDataOf, ho, hk]
  · intro ho
    simp only [edgeDataOf, ho]
  · intro obj k f t ho hk hf ht
    simp only [edgeDataOf, ho, hk, hf, ht]
    refine ⟨_, rfl, ?_⟩
    intro x
    rw [jlookup_addAttrs]
    unfold edgeDataSpec
    by_cases h1 : x ∈ eattrs ∧ (jlookup obj x).isSome = true
    · simp [h1]
    · simp only [h1, if_false]
      by_cases h2 : x = "id"
      · subst h2
        simp [jlookup_mapInsert]
      · by_cases h3 : x = "source"
        · subst h3
          simp [jlookup_mapInsert]
        · by_cases h4 : x = "target"
          · subst h4
            simp [jlookup_mapInsert]
          · have h2' : ¬"id" = x := fun hh => h2 hh.symm
            have h3' : ¬"source" = x := fun hh => h3 hh.symm
            have h4' : ¬"target" = x := fun hh => h4 hh.symm
            simp [jlookup_mapInsert, h2, h3, h4, h2', h3', h4', jlookup]

/-- C7 (counterexample): an edge document whose own (discovered) attribute is
    literally named `id` has that attribute overwrite the `_key`-derived entry:
    the emitted edge's `id` is "X", not its `_key` value "k". -/
theorem export_edge_id_overwritten_cex :
    edgeDataOf
        (collect_attributes [Json.obj [("_key", Json.str "k"), ("_from", Json.str "a/b"),
                                       ("_to", Json.str "a/c"), ("id", Json.str "X")]])
        (Json.obj [("_key", Json.str "k"), ("_from", Json.str "a/b"),
                   ("_to", Json.str "a/c"), ("id", Json.str "X")]) =
      .ok (some [("id", Json.str "X"), ("source", Json.str "a/b"),
                 ("target", Json.str "a/c")]) ∧
    jlookup [("_key", Json.str "k"), ("_from", Json.str "a/b"),
             ("_to", Json.str "a/c"), ("id", Json.str "X")] "_key" =
      some (Json.str "k") ∧
    jlookup [("id", Json.str "X"), ("source", Json.str "a/b"),
             ("target", Json.str "a/c")] "id" ≠ some (Json.str "k") := by
  refine ⟨?_, ?_, ?_⟩
  · rfl
  · rfl
  · decide

theorem export_edge_translation_witness :
    ∃ d, edgeDataOf ["w"] (Json.obj [("_key", Json.str "e1"), ("_from", Json.str "a/b"),
                                     ("_to", Json.str "a/c"), ("w", Json.num 2)]) =
        .ok (some d) ∧
      ∀ x, jlookup d x =
        edgeDataSpec [("_key", Json.str "e1"), ("_from", Json.str "a/b"),
                      ("_to", Json.str "a/c"), ("w", Json.num 2)] ["w"]
          (Json.str "e1") (Json.str "a/b") (Json.str "a/c") x :=
  (export_edge_translation ["w"]
      (Json.obj [("_key", Json.str "e1"), ("_from", Json.str "a/b"),
                 ("_to", Json.str "a/c"), ("w", Json.num 2)])).2.2
    _ _ _ _ rfl (by decide) (by decide) (by decide)

theorem postColumns_first_err (resp : Nat → Except String Unit)
    (mk : String → String → CyReq) (a t : String) (rest : List (String × String))
    (i : Nat) (msg : String) (h : resp i = .error msg) :
    postColumns resp mk ((a, t) :: rest) i = ([mk a t], .error msg) := by
  unfold postColumns
  rw [h]

theorem postColumns_all_ok (resp : Nat → Except String Unit)
    (mk : String → String → CyReq) (cols : List (String × String)) (i : Nat)
    (h : ∀ j, resp j = .ok ()) :
    postColumns resp mk cols i =
      (cols.map (fun p => mk p.1 p.2), .ok (i + cols.length)) := by
  induction cols generalizing i with
  | nil => simp [postColumns]
  | cons c rest ih =>
    obtain ⟨a, t⟩ := c
    unfold postColumns
    rw [h i, ih (i + 1)]
    simp only [List.map_cons, List.length_cons]
    have harith : i + 1 + rest.length = i + (rest.length + 1) := by omega
    rw [harith]

/-- C8 (amended): once network creation has succeeded, a transport failure of
    an individual column request makes the exporter return that single error
    immediately — the remaining column requests and the layout request are not
    attempted and failures are not aggregated; when all column requests succeed
    and the layout request fails, that failure is returned to the caller after
    every column request was issued.  In both cases the trace contains no
    request that deletes or rolls back the created network (the request
    vocabulary has none). -/
theorem send_to_cytoscape_abort_on_first (w : CyWorld) (vertices edges : Json)
    (varr earr : List Json) (resp : Json) (n : Int)
    (hv : vertices.asArr = some varr) (he : edges.asArr = some earr)
    (hp : (earr.map (edgeDataOf (collect_attributes earr))).any
        (fun r => match r with | .error _ => true | .ok _ => false) = false)
    (hnet : w.networkResp = .ok resp)
    (hsuid : (resp.index "networkSUID").asI64 = some n) :
    (∀ a t rest msg, columnsOf varr = (a, t) :: rest → w.columnResp 0 = .error msg →
       send_to_cytoscape w vertices edges =
         ⟨[.createNetwork, .nodeColumn a t], .err msg⟩) ∧
    (∀ msg, (∀ j, w.columnResp j = .ok ()) → w.layoutResp = .error msg →
       send_to_cytoscape w vertices edges =
         ⟨.createNetwork ::
            ((columnsOf varr).map (fun p => .nodeColumn p.1 p.2) ++
             ((columnsOf earr).map (fun p => .edgeColumn p.1 p.2) ++ [.layout])),
          .err msg⟩) := by
  constructor
  · intro a t rest msg hcols hc0
    unfold send_to_cytoscape
    rw [hv, he]
    simp only [hp, Bool.false_eq_true, if_false, hnet, hsuid]
    rw [hcols, postColumns_first_err w.columnResp _ a t rest 0 msg hc0]
  · intro msg hall hlay
    unfold send_to_cytoscape
    rw [hv, he]
    simp only [hp, Bool.false_eq_true, if_false, hnet, hsuid]
    rw [postColumns_all_ok w.columnResp _ (columnsOf varr) 0 hall]
    dsimp only
    rw [postColumns_all_ok w.columnResp _ (columnsOf earr) (0 + (columnsOf varr).length) hall]
    dsimp only
    rw [hlay]
    simp [List.append_assoc]

/-- C8 (counterexample): network creation succeeds, the first of two column
    requests fails in transport — the exporter stops with that one error; the
    second column request and the layout request are never attempted, so not
    all failures can be reported, contradicting the claim. -/
theorem send_to_cytoscape_abort_cex :
    (send_to_cytoscape
        ⟨.ok (Json.obj [("networkSUID", Json.num 1)]),
         fun i => if i = 0 then .error "boom" else .ok (),
         .ok ()⟩
        (Json.arr [Json.obj [("_id", Json.str "v/1"), ("a", Json.num 1),
                             ("b", Json.num 2)]])
        (Json.arr [])).result = .err "boom" ∧
    (send_to_cytoscape
        ⟨.ok (Json.obj [("networkSUID", Json.num 1)]),
         fun i => if i = 0 then .error "boom" else .ok (),
         .ok ()⟩
        (Json.arr [Json.obj [("_id", Json.str "v/1"), ("a", Json.num 1),
                             ("b", Json.num 2)]])
        (Json.arr [])).trace = [.createNetwork, .nodeColumn "a" "Double"] ∧
    CyReq.nodeColumn "b" "Double" ∉
      (send_to_cytoscape
        ⟨.ok (Json.obj [("networkSUID", Json.num 1)]),
         fun i => if i = 0 then .error "boom" else .ok (),
         .ok ()⟩
        (Json.arr [Json.obj [("_id", Json.str "v/1"), ("a", Json.num 1),
                             ("b", Json.num 2)]])
        (Json.arr [])).trace ∧
    CyReq.layout ∉
      (send_to_cytoscape
        ⟨.ok (Json.obj [("networkSUID", Json.num 1)]),
         fun i => if i = 0 then .error "boom" else .ok (),
         .ok ()⟩
        (Json.arr [Json.obj [("_id", Json.str "v/1"), ("a", Json.num 1),
                             ("b", Json.num 2)]])
        (Json.arr [])).trace := by
  refine ⟨rfl, rfl, ?_, ?_⟩ <;> decide

theorem send_to_cytoscape_abort_witness :
    send_to_cytoscape
      ⟨.ok (Json.obj [("networkSUID", Json.num 1)]),
       fun i => if i = 0 then .error "oops" else .ok (),
       .ok ()⟩
      (Json.arr [Json.obj [("_id", Json.str "v/1"), ("a", Json.num 1),
                           ("b", Json.num 2)]])
      (Json.arr []) =
      ⟨[.createNetwork, .nodeColumn "a" "Double"], .err "oops"⟩ :=
  (send_to_cytoscape_abort_on_first
      ⟨.ok (Json.obj [("networkSUID", Json.num 1)]),
       fun i => if i = 0 then .error "oops" else .ok (),
       .ok ()⟩
      (Json.arr [Json.obj [("_id", Json.str "v/1"), ("a", Json.num 1),
                           ("b", Json.num 2)]])
      (Json.arr [])
      [Json.obj [("_id", Json.str "v/1"), ("a", Json.num 1), ("b", Json.num 2)]]
      []
      (Json.obj [("networkSUID", Json.num 1)])
      1 rfl rfl (by decide) rfl rfl).1
    "a" "Double" [("b", "Double")] "oops" (by decide) rfl
